import Mathlib

/-!
Shallow embedding of the request-shaping proxy `lmstudio_vision_proxy.py`
(image-descriptor normalization, multimodal message composition, upstream
relay) and proofs of the specification's claims about it.

Python strings are modelled as `List Char`; Python dicts with a known key
set are modelled as structures; JSON values as an inductive type; bytes
chunks as `List Nat`.
-/

/-- Python strings, modelled as lists of characters. -/
abbrev Str := List Char

/-- Python `sub in s` (substring containment), by scanning suffixes of `s`. -/
def containsSub (sub : Str) : Str → Bool
  | [] => sub.isEmpty
  | c :: rest => sub.isPrefixOf (c :: rest) || containsSub sub rest

/-- Source `looks_data_url`: `s.startswith("data:") and ";base64," in s`. -/
def looks_data_url (s : Str) : Bool :=
  ("data:".toList).isPrefixOf s && containsSub (";base64,".toList) s

/-- Source `is_http_url`: `s.startswith("http://") or s.startswith("https://")`. -/
def is_http_url (s : Str) : Bool :=
  ("http://".toList).isPrefixOf s || ("https://".toList).isPrefixOf s

/-- Source `to_data_url_from_base64`: `f"data:{mime};base64,{raw_b64}"`,
with default mime `image/png`. -/
def to_data_url_from_base64 (raw_b64 : Str) (mime : Str := "image/png".toList) : Str :=
  "data:".toList ++ mime ++ ";base64,".toList ++ raw_b64

/-- An entry of the `images` / `allImages` request field: a plain string, a
dict `{"id": ..., "data": ...}`, or any other shape. For a dict, `data = none`
models both an absent `"data"` key and a non-string value, which the source
treats alike (`x.get("data", "")` followed by the `isinstance(data, str)`
guard): the descriptor is skipped. -/
inductive ImageDescriptor
  | str (s : Str)
  | dict (ident : Option Str) (data : Option Str)
  | otherShape
deriving DecidableEq

/-- One iteration of the `for x in images_in` loop of `prepare_image_urls`:
the URL candidates contributed by a single descriptor (zero or one). -/
def descriptorCandidates : ImageDescriptor → List Str
  | .dict _ data =>
    match data with
    | some d =>
      if d.isEmpty then []
      else [if looks_data_url d then d else to_data_url_from_base64 d]
    | none => []
  | .str s =>
    if looks_data_url s || is_http_url s then [s] else [to_data_url_from_base64 s]
  | .otherShape => []

/-- The `urls` list built by the loop of `prepare_image_urls`, before
de-duplication. -/
def candidateUrls (images_in : List ImageDescriptor) : List Str :=
  (images_in.map descriptorCandidates).flatten

/-- The de-duplication loop of `prepare_image_urls`: `seen` models the
`seen` set (as the list of its elements), `uniq` the accumulator list. -/
def dedupAppend : List Str → List Str → List Str → List Str
  | [], _, uniq => uniq
  | u :: rest, seen, uniq =>
    if u ∈ seen then dedupAppend rest seen uniq
    else dedupAppend rest (u :: seen) (uniq ++ [u])

/-- Source `prepare_image_urls`: build the candidate URL list, then
de-duplicate preserving order. -/
def prepare_image_urls (images_in : List ImageDescriptor) : List Str :=
  dedupAppend (candidateUrls images_in) [] []

/-- Helper recursion equivalent to the de-duplication loop with the
accumulator factored out: the elements of the input not in `seen`,
first occurrences only. -/
def firstNew : List Str → List Str → List Str
  | [], _ => []
  | u :: rest, seen =>
    if u ∈ seen then firstNew rest seen else u :: firstNew rest (u :: seen)

/-- Specification-side characterization of first-occurrence
de-duplication: keep the head, then recursively de-duplicate the tail with
all later copies of the head removed. -/
def firstOccurrences : List Str → List Str
  | [] => []
  | u :: rest => u :: (firstOccurrences rest).filter (fun a => decide (a ≠ u))

theorem dedupAppend_eq_firstNew (l : List Str) :
    ∀ seen uniq, dedupAppend l seen uniq = uniq ++ firstNew l seen := by
  induction l with
  | nil => intro seen uniq; simp [dedupAppend, firstNew]
  | cons u rest ih =>
    intro seen uniq
    by_cases h : u ∈ seen
    · simp [dedupAppend, firstNew, h, ih]
    · simp [dedupAppend, firstNew, h, ih]

theorem firstNew_eq_filter (l : List Str) :
    ∀ seen, firstNew l seen = (firstOccurrences l).filter (fun a => decide (a ∉ seen)) := by
  induction l with
  | nil => intro seen; simp [firstNew, firstOccurrences]
  | cons u rest ih =>
    intro seen
    by_cases h : u ∈ seen
    · rw [firstNew, if_pos h, ih, firstOccurrences,
        List.filter_cons_of_neg (by simp [h]), List.filter_filter]
      apply List.filter_congr
      intro a _
      by_cases ha : a ∈ seen
      · simp [ha]
      · have hau : a ≠ u := fun hc => ha (hc ▸ h)
        simp [ha, hau]
    · rw [firstNew, if_neg h, ih, firstOccurrences,
        List.filter_cons_of_pos (by simp [h]), List.filter_filter]
      congr 1
      apply List.filter_congr
      intro a _
      by_cases ha : a ∈ seen
      · simp [ha, List.mem_cons]
      · by_cases hau : a = u
        · simp [hau, List.mem_cons]
        · simp [ha, hau, List.mem_cons]

theorem firstOccurrences_nodup (l : List Str) : (firstOccurrences l).Nodup := by
  induction l with
  | nil => simp [firstOccurrences]
  | cons u rest ih =>
    simp only [firstOccurrences]
    refine List.Nodup.cons ?_ (List.Nodup.filter _ ih)
    intro hmem
    have := List.of_mem_filter hmem
    simp at this

/-! ## Message composer -/

/-- A typed content block: `{"type": "text", "text": s}`,
`{"type": "image_url", "image_url": {"url": url}}`, or any other list
element (never inspected by the composer). -/
inductive Block
  | text (s : Str)
  | image (url : Str)
  | otherBlock
deriving DecidableEq

/-- A message's `content` value: a plain string, a list of blocks, or any
other shape (the wholesale-replacement fallback case). -/
inductive Content
  | str (s : Str)
  | blocks (bs : List Block)
  | otherContent
deriving DecidableEq

/-- A chat message dict: a `role` value (`none` models an absent key), a
`content` value (`none` models an absent key, which `.get("content", "")`
reads as `""`), and the remaining key-value pairs, which the composer never
touches. -/
structure Message where
  role : Option Str
  content : Option Content
  extra : List (Str × Str)
deriving DecidableEq

/-- The role tag the composer searches for. -/
def userRole : Str := "user".toList

/-- Whether index `i` of `ms` holds a message whose `role` is `"user"`
(the loop condition `messages[i].get("role") == "user"`). -/
def roleAt (ms : List Message) (i : Nat) : Bool :=
  match ms[i]? with
  | some m => decide (m.role = some userRole)
  | none => false

/-- The `for i in range(len(messages) - 1, -1, -1)` scan: the first index,
counting from the end, whose message has role `"user"`. -/
def lastUserIdx (ms : List Message) : Option Nat :=
  (List.range ms.length).reverse.find? (roleAt ms)

/-- The `img_blocks` list comprehension: one `image_url` block per URL. -/
def imgBlocks (urls : List Str) : List Block :=
  urls.map Block.image

/-- Python `content.strip()` truthiness: the string has a non-whitespace
character. -/
def hasVisibleText (s : Str) : Bool :=
  s.any (fun c => !c.isWhitespace)

/-- The content rewrite of `ensure_multimodal_message` for the located user
message: string content becomes an optional text block followed by the
image blocks; list content gets the image blocks appended; any other shape
is replaced by the image blocks alone. -/
def rewriteContent (c : Content) (imgs : List Block) : Content :=
  match c with
  | .str s => .blocks ((if hasVisibleText s then [Block.text s] else []) ++ imgs)
  | .blocks bs => .blocks (bs ++ imgs)
  | .otherContent => .blocks imgs

/-- Source `ensure_multimodal_message`: with no images, the input is
returned as is; otherwise the image blocks are merged into the last
user-role message, or a fresh user message is appended when none exists. -/
def ensure_multimodal_message (messages : List Message) (image_urls : List Str) :
    List Message :=
  if image_urls.isEmpty then messages
  else
    match lastUserIdx messages with
    | none =>
      messages ++ [{ role := some userRole,
                     content := some (.blocks (imgBlocks image_urls)),
                     extra := [] }]
    | some idx =>
      match messages[idx]? with
      | none => messages
      | some user_msg =>
        messages.set idx
          { user_msg with
            content := some (rewriteContent (user_msg.content.getD (.str []))
              (imgBlocks image_urls)) }

/-! ## Upstream relay -/

/-- A streamed byte chunk. -/
abbrev Chunk := List Nat

/-- The `gen()` generator of the streamed branch: forward each truthy
(non-empty) chunk, in order. -/
def relayChunks : List Chunk → List Chunk
  | [] => []
  | c :: rest => if c.isEmpty then relayChunks rest else c :: relayChunks rest

/-- JSON values, for the buffered response body. -/
inductive JValue
  | null
  | bool (b : Bool)
  | num (n : Int)
  | str (s : Str)
  | arr (elems : List JValue)
  | obj (fields : List (Str × JValue))

/-- The response handed back to the caller: HTTP status plus JSON body. -/
structure RelayResponse where
  status : Nat
  content : JValue

/-- Outcome of the upstream POST: either an HTTP response (with the result
of JSON-decoding its body, `none` when the body does not parse) or a
transport failure before any status was received. `errText` stands for the
rendered text of the exception the outcome would raise. -/
inductive Upstream
  | response (status : Nat) (body : Option JValue) (errText : Str)
  | transport (errText : Str)

/-- The synthesized error body `{"error": {"message": msg}}`. -/
def synthError (msg : Str) : JValue :=
  .obj [("error".toList, .obj [("message".toList, .str msg)])]

/-- Python `k in dict` over the modelled field list. -/
def hasKey (fields : List (Str × JValue)) (k : Str) : Bool :=
  fields.any (fun p => decide (p.1 = k))

/-- Python `dict.setdefault(k, v)`: insert `(k, v)` at the end when `k` is
absent. -/
def setdefault (fields : List (Str × JValue)) (k : Str) (v : JValue) :
    List (Str × JValue) :=
  if hasKey fields k then fields else fields ++ [(k, v)]

/-- `body.get("model") or "local"`: the caller's requested model name, with
a missing or empty value replaced by `"local"`. -/
def modelOrLocal (requestedModel : Option Str) : Str :=
  match requestedModel with
  | some s => if s.isEmpty then "local".toList else s
  | none => "local".toList

/-- The `setdefault` pair of the buffered branch: fill missing `id` and
`model` fields of a decoded mapping; any non-mapping body is untouched.
`freshHex` stands for `uuid.uuid4().hex`. -/
def augmentBody (requestedModel : Option Str) (freshHex : Str) : JValue → JValue
  | .obj fields =>
    .obj (setdefault
      (setdefault fields ("id".toList) (.str ("chatcmpl-".toList ++ freshHex.take 24)))
      ("model".toList) (.str (modelOrLocal requestedModel)))
  | v => v

/-- `requests.Response.raise_for_status` raises `HTTPError` exactly for
status codes in `[400, 600)`. -/
def raisesForStatus (s : Nat) : Bool :=
  decide (400 ≤ s) && decide (s < 600)

/-- The buffered branch of `chat_completions` together with its exception
handlers: on an error status, reply with that status and the upstream body
(or a synthesized error body when it does not parse); on a success status,
reply 200 with the augmented decoded body (a body that fails to decode
raises and is mapped to 502); on a transport failure, reply 502 with a
synthesized error body. -/
def chat_completions_buffered (requestedModel : Option Str) (freshHex : Str)
    (u : Upstream) : RelayResponse :=
  match u with
  | .transport msg => ⟨502, synthError msg⟩
  | .response s body msg =>
    if raisesForStatus s then
      ⟨s, match body with
          | some j => j
          | none => synthError msg⟩
    else
      match body with
      | some j => ⟨200, augmentBody requestedModel freshHex j⟩
      | none => ⟨502, synthError msg⟩

/-- Line `images_in = body.get("images") or body.get("allImages") or []`:
Python `or` chained over possibly absent, possibly empty list fields. -/
def orElseList (x : Option (List ImageDescriptor)) (y : List ImageDescriptor) :
    List ImageDescriptor :=
  match x with
  | some l => if l.isEmpty then y else l
  | none => y

/-- The image-source selection of `chat_completions`: `images` when present
and non-empty, else `allImages` when present and non-empty, else `[]`. -/
def pickImages (images allImages : Option (List ImageDescriptor)) :
    List ImageDescriptor :=
  orElseList images (orElseList allImages [])

/-! ## Helper lemmas -/

theorem isEmpty_false_of_ne_nil {α : Type} {l : List α} (h : l ≠ []) :
    l.isEmpty = false := by
  cases l with
  | nil => exact absurd rfl h
  | cons x xs => rfl

theorem lastUserIdx_eq_none (ms : List Message)
    (h : ∀ m ∈ ms, m.role ≠ some userRole) : lastUserIdx ms = none := by
  rw [lastUserIdx, List.find?_eq_none]
  intro i hi
  cases hm : ms[i]? with
  | none => simp [roleAt, hm]
  | some m =>
    have hmem : m ∈ ms := List.mem_iff_getElem?.mpr ⟨i, hm⟩
    simp [roleAt, hm, h m hmem]

theorem lastUserIdx_lt (ms : List Message) (i : Nat)
    (h : lastUserIdx ms = some i) : i < ms.length := by
  rw [lastUserIdx] at h
  have hmem := List.mem_of_find?_eq_some h
  rw [List.mem_reverse, List.mem_range] at hmem
  exact hmem

theorem hasVisibleText_iff (s : Str) :
    hasVisibleText s = true ↔ ∃ c ∈ s, ¬ c.isWhitespace = true := by
  simp [hasVisibleText]

/-! ## Claims -/

/-- Claim C2: for every input list of image descriptors, the normalized URL
list contains no repeated entries, and its entries are exactly the first
occurrences, in order, of the candidate URLs produced from the input. -/
theorem prepare_image_urls_dedup (images_in : List ImageDescriptor) :
    prepare_image_urls images_in = firstOccurrences (candidateUrls images_in) ∧
    (prepare_image_urls images_in).Nodup := by
  have h : prepare_image_urls images_in = firstOccurrences (candidateUrls images_in) := by
    rw [prepare_image_urls, dedupAppend_eq_firstNew, firstNew_eq_filter]
    simp
  exact ⟨h, h ▸ firstOccurrences_nodup _⟩

/-- Claim C3: a plain-string descriptor that is already a data URL or an
http(s) URL contributes itself, unchanged, to the candidate list; any other
plain string is wrapped as `data:image/png;base64,<payload>`; in particular
`"QUJD"` yields `"data:image/png;base64,QUJD"`. -/
theorem string_descriptor_candidates (s : Str) :
    (looks_data_url s = true ∨ is_http_url s = true →
      descriptorCandidates (.str s) = [s]) ∧
    (looks_data_url s = false → is_http_url s = false →
      descriptorCandidates (.str s) = [to_data_url_from_base64 s]) ∧
    descriptorCandidates (.str ("QUJD".toList)) =
      [("data:image/png;base64,QUJD".toList)] := by
  refine ⟨?_, ?_, by decide⟩
  · intro h
    have hb : (looks_data_url s || is_http_url s) = true := by
      rcases h with h | h <;> simp [h]
    simp [descriptorCandidates, hb]
  · intro h1 h2
    simp [descriptorCandidates, h1, h2]

/-- Witness for C3: a concrete http URL passes through unchanged, and a
concrete raw payload is wrapped. -/
theorem string_descriptor_candidates_witness :
    descriptorCandidates (.str ("http://a".toList)) = [("http://a".toList)] ∧
    descriptorCandidates (.str ("QUJD".toList)) =
      [to_data_url_from_base64 ("QUJD".toList)] :=
  ⟨(string_descriptor_candidates ("http://a".toList)).1 (Or.inr (by decide)),
   (string_descriptor_candidates ("QUJD".toList)).2.1 (by decide) (by decide)⟩

/-- Claim C4: composing any message sequence with an empty image-URL list
returns the original sequence unchanged. -/
theorem ensure_empty_images (messages : List Message) :
    ensure_multimodal_message messages [] = messages := rfl

/-- Claim C8 counterexample: the relay does not forward every upstream
chunk — an empty chunk is dropped by the `if chunk:` guard, so for upstream
chunks `[b"", b"a"]` the relay does not yield `[b"", b"a"]`. -/
theorem relay_chunks_not_exact :
    relayChunks [([] : Chunk), [97]] ≠ [([] : Chunk), [97]] := by decide

/-- Claim C8 (amended): the relay yields exactly the upstream's non-empty
chunks, in the order received, without merging or splitting (the output is
a sublist of the input chunks); when every upstream chunk is non-empty the
relay yields exactly the upstream's chunks. -/
theorem relay_chunks_order (chunks : List Chunk) :
    relayChunks chunks = chunks.filter (fun c => !c.isEmpty) ∧
    (relayChunks chunks).Sublist chunks ∧
    ((∀ c ∈ chunks, c ≠ []) → relayChunks chunks = chunks) := by
  have hf : relayChunks chunks = chunks.filter (fun c => !c.isEmpty) := by
    induction chunks with
    | nil => rfl
    | cons c rest ih =>
      cases hc : c.isEmpty <;> simp [relayChunks, hc, ih, List.filter_cons]
  refine ⟨hf, hf ▸ List.filter_sublist chunks, ?_⟩
  intro h
  rw [hf, List.filter_eq_self]
  intro c hc
  simpa using isEmpty_false_of_ne_nil (h c hc)

/-- Witness for C8 (amended): the spec's example — chunks
`[b"a", b"b", b"c"]` are relayed exactly, in order. -/
theorem relay_chunks_order_witness :
    relayChunks [[97], [98], [99]] = [[97], [98], [99]] :=
  (relay_chunks_order [[97], [98], [99]]).2.2 (by decide)

/-- Claim C9: a non-success upstream status is propagated to the caller
with the upstream's JSON error body when it parses, else with a
synthesized `{error: {message: ...}}` body; a transport failure before any
status yields the fixed gateway status 502 with a synthesized body. -/
theorem upstream_failure_mapping (requestedModel : Option Str) (freshHex : Str)
    (s : Nat) (j : JValue) (msg : Str) :
    (400 ≤ s → s < 600 →
      chat_completions_buffered requestedModel freshHex (.response s (some j) msg) =
        ⟨s, j⟩ ∧
      chat_completions_buffered requestedModel freshHex (.response s none msg) =
        ⟨s, synthError msg⟩) ∧
    chat_completions_buffered requestedModel freshHex (.transport msg) =
      ⟨502, synthError msg⟩ := by
  refine ⟨?_, rfl⟩
  intro h1 h2
  have hr : raisesForStatus s = true := by simp [raisesForStatus, h1, h2]
  constructor <;> simp [chat_completions_buffered, hr]

/-- Witness for C9: a simulated upstream 429 with a JSON error body is
returned with status 429 and the identical body, and a transport failure
maps to 502. -/
theorem upstream_failure_mapping_witness :
    chat_completions_buffered none [] (.response 429 (some (synthError ("rate".toList))) []) =
      ⟨429, synthError ("rate".toList)⟩ ∧
    chat_completions_buffered none [] (.transport ("down".toList)) =
      ⟨502, synthError ("down".toList)⟩ :=
  ⟨((upstream_failure_mapping none [] 429 (synthError ("rate".toList)) []).1
      (by decide) (by decide)).1,
   (upstream_failure_mapping none [] 429 (synthError ("rate".toList))
      ("down".toList)).2⟩

/-- Claim C1 counterexample: for an upstream success status 201 with a
decodable JSON body, the caller receives status 200, not the upstream's
status 201. -/
theorem buffered_status_not_propagated :
    (chat_completions_buffered none [] (.response 201 (some (.obj [])) [])).status = 200 ∧
    (chat_completions_buffered none [] (.response 201 (some (.obj [])) [])).status ≠ 201 := by
  constructor <;> decide

/-- Claim C1 (amended): in buffered mode, after a successful upstream POST
the relay returns the (possibly augmented) decoded JSON body with the fixed
HTTP status 200, regardless of the upstream's successful status code. -/
theorem buffered_success_response (requestedModel : Option Str) (freshHex : Str)
    (s : Nat) (j : JValue) (msg : Str) (h : s < 400) :
    chat_completions_buffered requestedModel freshHex (.response s (some j) msg) =
      ⟨200, augmentBody requestedModel freshHex j⟩ := by
  have hn : ¬ 400 ≤ s := by omega
  have hr : raisesForStatus s = false := by simp [raisesForStatus, hn]
  simp [chat_completions_buffered, hr]

/-- Witness for C1 (amended): a concrete 201 success returns the augmented
empty object with status 200. -/
theorem buffered_success_response_witness :
    chat_completions_buffered none [] (.response 201 (some (.obj [])) []) =
      ⟨200, augmentBody none [] (.obj [])⟩ :=
  buffered_success_response none [] 201 (.obj []) [] (by decide)

/-- Claim C10: a present, non-empty `images` field is used and `allImages`
is ignored entirely (the result does not depend on it); `allImages` is
consulted exactly when `images` is absent or empty. -/
theorem images_field_precedence (l : List ImageDescriptor)
    (a : Option (List ImageDescriptor)) (h : l ≠ []) :
    pickImages (some l) a = l ∧
    (∀ a2, pickImages (some l) a2 = pickImages (some l) a) ∧
    (∀ l2, l2 ≠ [] → pickImages none (some l2) = l2) ∧
    pickImages none none = [] ∧
    pickImages (some []) a = pickImages none a := by
  have he := isEmpty_false_of_ne_nil h
  refine ⟨by simp [pickImages, orElseList, he], ?_, ?_, rfl, rfl⟩
  · intro a2
    simp [pickImages, orElseList, he]
  · intro l2 h2
    simp [pickImages, orElseList, isEmpty_false_of_ne_nil h2]

/-- Witness for C10: with both fields present and non-empty, `images` wins;
with `images` absent, `allImages` is used. -/
theorem images_field_precedence_witness :
    pickImages (some [.otherShape])
      (some [.str ("x".toList)]) = [.otherShape] ∧
    pickImages none (some [.str ("x".toList)]) = [.str ("x".toList)] :=
  ⟨(images_field_precedence [.otherShape] (some [.str ("x".toList)])
      (by decide)).1,
   (images_field_precedence [.otherShape] (some [.str ("x".toList)])
      (by decide)).2.2.1 [.str ("x".toList)] (by decide)⟩

/-- Claim C5: when no message has role `user` and the image-URL list is
non-empty, the composer appends exactly one new trailing `user` message
whose content is one image block per URL, in input order. -/
theorem composer_creates_user_turn (messages : List Message) (image_urls : List Str)
    (hno : ∀ m ∈ messages, m.role ≠ some userRole) (hne : image_urls ≠ []) :
    ensure_multimodal_message messages image_urls =
      messages ++ [{ role := some userRole,
                     content := some (.blocks (image_urls.map Block.image)),
                     extra := [] }] := by
  simp [ensure_multimodal_message, isEmpty_false_of_ne_nil hne,
    lastUserIdx_eq_none messages hno, imgBlocks]

/-- Witness for C5: the spec's example — a lone system message plus one URL
gives two messages, the new trailing one a `user` message whose content is
the single image block. -/
theorem composer_creates_user_turn_witness :
    ensure_multimodal_message
      [{ role := some ("system".toList), content := some (.str ("sys".toList)),
         extra := [] }]
      [("U".toList)] =
      [{ role := some ("system".toList), content := some (.str ("sys".toList)),
         extra := [] },
       { role := some userRole, content := some (.blocks [Block.image ("U".toList)]),
         extra := [] }] :=
  composer_creates_user_turn
    [{ role := some ("system".toList), content := some (.str ("sys".toList)),
       extra := [] }]
    [("U".toList)] (by decide) (by decide)

/-- Claim C6: with a non-empty URL list and the last user message located,
string content is replaced by a text block carrying the original string —
omitted when the string has no non-whitespace character — followed by one
image block per URL in order, and list content gets the image blocks
appended at its end. -/
theorem composer_rewrites_user_content (messages : List Message)
    (image_urls : List Str) (idx : Nat) (m : Message) (hne : image_urls ≠ [])
    (hidx : lastUserIdx messages = some idx) (hm : messages[idx]? = some m) :
    (∀ s, m.content = some (.str s) →
      (ensure_multimodal_message messages image_urls)[idx]? =
        some { m with content := some (.blocks
          ((if ∃ c ∈ s, ¬ c.isWhitespace = true then [Block.text s] else []) ++
            image_urls.map Block.image)) }) ∧
    (∀ bs, m.content = some (.blocks bs) →
      (ensure_multimodal_message messages image_urls)[idx]? =
        some { m with content := some (.blocks (bs ++ image_urls.map Block.image)) }) := by
  have hlt : idx < messages.length := lastUserIdx_lt _ _ hidx
  have hres : ensure_multimodal_message messages image_urls =
      messages.set idx
        { m with content := some (rewriteContent (m.content.getD (.str []))
            (imgBlocks image_urls)) } := by
    simp [ensure_multimodal_message, isEmpty_false_of_ne_nil hne, hidx, hm]
  constructor
  · intro s hs
    rw [hres, List.getElem?_set_self hlt]
    by_cases hv : ∃ c ∈ s, ¬ c.isWhitespace = true
    · have hb : hasVisibleText s = true := (hasVisibleText_iff s).mpr hv
      rw [if_pos hv]
      simp [rewriteContent, imgBlocks, hs, hb]
    · have hb : hasVisibleText s = false := by
        cases h : hasVisibleText s with
        | false => rfl
        | true => exact absurd ((hasVisibleText_iff s).mp h) hv
      rw [if_neg hv]
      simp [rewriteContent, imgBlocks, hs, hb]
  · intro bs hb2
    rw [hres, List.getElem?_set_self hlt]
    simp [rewriteContent, imgBlocks, hb2]

/-- Witness for C6: the spec's example — a user message with content
`"describe"` and one URL `U` becomes a text block followed by the image
block. -/
theorem composer_rewrites_user_content_witness :
    (ensure_multimodal_message
      [{ role := some userRole, content := some (.str ("describe".toList)),
         extra := [] }]
      [("U".toList)])[0]? =
      some { role := some userRole,
             content := some (.blocks
               [Block.text ("describe".toList), Block.image ("U".toList)]),
             extra := [] } :=
  (composer_rewrites_user_content
    [{ role := some userRole, content := some (.str ("describe".toList)),
       extra := [] }]
    [("U".toList)] 0
    { role := some userRole, content := some (.str ("describe".toList)),
      extra := [] }
    (by decide) (by decide) rfl).1 ("describe".toList) rfl

/-- Claim C7: with a non-empty URL list, the composer returns a sequence in
which every message other than the modified (or appended) last user message
is unchanged, and the modified message keeps its role and every other
non-content field. Input messages are never mutated: the embedding is a
pure function of them. -/
theorem composer_frame (messages : List Message) (image_urls : List Str)
    (hne : image_urls ≠ []) :
    (lastUserIdx messages = none →
      ∀ i, i < messages.length →
        (ensure_multimodal_message messages image_urls)[i]? = messages[i]?) ∧
    (∀ idx, lastUserIdx messages = some idx →
      ((∀ i, i ≠ idx →
          (ensure_multimodal_message messages image_urls)[i]? = messages[i]?) ∧
       (∀ m m2, messages[idx]? = some m →
          (ensure_multimodal_message messages image_urls)[idx]? = some m2 →
          m2.role = m.role ∧ m2.extra = m.extra) ∧
       (ensure_multimodal_message messages image_urls).length = messages.length)) := by
  constructor
  · intro hnone i hi
    have hres : ensure_multimodal_message messages image_urls =
        messages ++ [{ role := some userRole,
                       content := some (.blocks (imgBlocks image_urls)),
                       extra := [] }] := by
      simp [ensure_multimodal_message, isEmpty_false_of_ne_nil hne, hnone]
    rw [hres, List.getElem?_append, if_pos hi]
  · intro idx hidx
    have hlt : idx < messages.length := lastUserIdx_lt _ _ hidx
    have hm : messages[idx]? = some messages[idx] := List.getElem?_eq_getElem hlt
    have hres : ensure_multimodal_message messages image_urls =
        messages.set idx
          { messages[idx] with
            content := some (rewriteContent ((messages[idx]).content.getD (.str []))
              (imgBlocks image_urls)) } := by
      simp [ensure_multimodal_message, isEmpty_false_of_ne_nil hne, hidx, hm]
    refine ⟨?_, ?_, ?_⟩
    · intro i hi
      rw [hres, List.getElem?_set_ne (Ne.symm hi)]
    · intro m m2 hm2 hr2
      rw [hres, List.getElem?_set_self hlt] at hr2
      have hmm : messages[idx] = m := by
        rw [hm] at hm2
        exact Option.some.inj hm2
      have hm2e := Option.some.inj hr2
      subst hm2e
      subst hmm
      exact ⟨rfl, rfl⟩
    · rw [hres, List.length_set]

/-- Witness for C7: with a system message followed by a user message and
one URL, the system message and the user message's role and extra fields
are unchanged. -/
theorem composer_frame_witness :
    (ensure_multimodal_message
      [{ role := some ("system".toList), content := some (.str ("sys".toList)),
         extra := [] },
       { role := some userRole, content := some (.str ("hi".toList)),
         extra := [] }]
      [("U".toList)])[0]? =
      some { role := some ("system".toList), content := some (.str ("sys".toList)),
             extra := [] } :=
  (((composer_frame
      [{ role := some ("system".toList), content := some (.str ("sys".toList)),
         extra := [] },
       { role := some userRole, content := some (.str ("hi".toList)),
         extra := [] }]
      [("U".toList)] (by decide)).2 1 (by decide)).1) 0 (by decide)
